import Mathlib

/-!
Verification of the StudyPal explanation pipeline (`app.py`, `quiz_app.py`).

Text is modelled as `List Char` (Python strings are sequences of code
points; all indexing and slicing in the source is by code point).
Character-class functions (`Char.isUpper`, `Char.isWhitespace`,
`Char.toLower`, `Char.isAlpha`) are the ASCII restrictions of the
corresponding Python predicates; every literal in the source is ASCII.

The external `ollama` subprocess is modelled by an oracle
`Nat → ProcOutcome` giving the outcome of each attempt (indexed from 0):
a successful exit with some stdout, a non-zero exit with some stderr, a
timeout, or a spawn/launch exception.  Side effects that do not influence
any returned value (printing, the actual sleeping during backoff, killing
the timed-out process) are modelled only insofar as they are counted:
`InvokeResult` records the number of attempts performed and the number of
backoff sleeps executed.
-/

namespace StudyPal

/-- Outcome of one attempt to run the external generation process
(`subprocess.Popen(["ollama", "run", "llama3.2", prompt], ...)` in
`app.py`, lines 139-158): normal termination with exit status 0 and some
stdout, non-zero exit status with some stderr, a timeout
(`subprocess.TimeoutExpired`), or an exception while spawning. -/
inductive ProcOutcome where
  | success (stdout : List Char)
  | exitFailure (stderr : List Char)
  | timeout
  | spawnError (msg : List Char)
deriving DecidableEq

/-- Whether an attempt outcome is the success case (exit status 0). -/
def ProcOutcome.isSuccess : ProcOutcome → Bool
  | .success _ => true
  | _ => false

/-- Python `str.strip()` with no argument: remove leading and trailing
whitespace (ASCII whitespace; the source never feeds non-ASCII
whitespace to it). -/
def pyStrip (l : List Char) : List Char :=
  ((l.dropWhile Char.isWhitespace).reverse.dropWhile Char.isWhitespace).reverse

/-- The sentinel returned by `call_llama_with_ollama` after exhausting
retries (`app.py` line 163). -/
def sentinelFail : List Char :=
  "Failed to generate explanation after multiple attempts.".data

/-- Result of one call of the Generation Invoker: the returned string,
the number of attempts performed, and the number of backoff sleeps
(`time.sleep(3)`) executed. -/
structure InvokeResult where
  output : List Char
  attempts : Nat
  backoffs : Nat
deriving DecidableEq

/-- The retry loop of `call_llama_with_ollama` (`app.py` lines 137-163):
`for attempt in range(max_retries)` with `fuel = maxRetries - attempt`
attempts left.  On a success outcome it returns `stdout.strip()`
immediately; on any failure outcome it sleeps (`time.sleep(3)`) exactly
when `attempt < max_retries - 1` and moves to the next attempt. -/
def runAttempts (double : Nat → ProcOutcome) (maxRetries : Nat) :
    Nat → Nat → InvokeResult
  | 0, _ => ⟨sentinelFail, 0, 0⟩
  | fuel + 1, attempt =>
    match double attempt with
    | .success stdout => ⟨pyStrip stdout, 1, 0⟩
    | _ =>
      let rest := runAttempts double maxRetries fuel (attempt + 1)
      ⟨rest.output, rest.attempts + 1,
        rest.backoffs + (if attempt < maxRetries - 1 then 1 else 0)⟩

/-- `ContentExplainer.call_llama_with_ollama(prompt, max_retries)`
(`app.py` lines 135-163), as a function of the process double: runs up to
`maxRetries` attempts starting from attempt 0.  The prompt itself only
determines the double, so it is not a separate argument here; callers
pass `double = behaviour prompt`. -/
def callLlamaWithOllama (double : Nat → ProcOutcome) (maxRetries : Nat := 3) :
    InvokeResult :=
  runAttempts double maxRetries maxRetries 0

/-- If every attempt in the window `[attempt, attempt+fuel)` fails, the
loop returns the sentinel, uses all `fuel` attempts, and sleeps between
consecutive attempts only (`fuel - 1` sleeps when the window is the tail
of the full range). -/
theorem runAttempts_all_fail (double : Nat → ProcOutcome) (maxRetries : Nat) :
    ∀ fuel attempt, attempt + fuel = maxRetries →
    (∀ i, attempt ≤ i → i < maxRetries → (double i).isSuccess = false) →
    runAttempts double maxRetries fuel attempt = ⟨sentinelFail, fuel, fuel - 1⟩ := by
  intro fuel
  induction fuel with
  | zero => intro attempt _ _; rfl
  | succ n ih =>
    intro attempt htot hfail
    have hlt : attempt < maxRetries := by omega
    have hcur : (double attempt).isSuccess = false :=
      hfail attempt le_rfl hlt
    have hrest : runAttempts double maxRetries n (attempt + 1) =
        ⟨sentinelFail, n, n - 1⟩ := by
      apply ih (attempt + 1) (by omega)
      intro i hi hi'
      exact hfail i (by omega) hi'
    rw [runAttempts]
    cases hd : double attempt with
    | success s => rw [hd] at hcur; simp [ProcOutcome.isSuccess] at hcur
    | exitFailure s =>
      simp only [hrest]
      rcases Nat.eq_zero_or_pos n with hn | hn
      · subst hn
        have : ¬ attempt < maxRetries - 1 := by omega
        simp [this]
      · have : attempt < maxRetries - 1 := by omega
        simp [this]; omega
    | timeout =>
      simp only [hrest]
      rcases Nat.eq_zero_or_pos n with hn | hn
      · subst hn
        have : ¬ attempt < maxRetries - 1 := by omega
        simp [this]
      · have : attempt < maxRetries - 1 := by omega
        simp [this]; omega
    | spawnError m =>
      simp only [hrest]
      rcases Nat.eq_zero_or_pos n with hn | hn
      · subst hn
        have : ¬ attempt < maxRetries - 1 := by omega
        simp [this]
      · have : attempt < maxRetries - 1 := by omega
        simp [this]; omega

/-- If attempts `attempt, ..., k-1` fail and attempt `k` succeeds with
stdout `out`, and `k` lies inside the loop range, the loop returns the
trimmed output after `k - attempt + 1` attempts with a sleep after each
failed attempt (all of which precede a further attempt). -/
theorem runAttempts_first_success (double : Nat → ProcOutcome)
    (maxRetries : Nat) (out : List Char) :
    ∀ fuel attempt k, attempt + fuel ≤ maxRetries → attempt ≤ k →
    k < attempt + fuel →
    (∀ i, attempt ≤ i → i < k → (double i).isSuccess = false) →
    double k = ProcOutcome.success out →
    runAttempts double maxRetries fuel attempt =
      ⟨pyStrip out, k - attempt + 1, k - attempt⟩ := by
  intro fuel
  induction fuel with
  | zero => intro attempt k _ _ h; omega
  | succ n ih =>
    intro attempt k hfit hak hk hfail hsucc
    rcases Nat.eq_or_lt_of_le hak with heq | hlt
    · subst heq
      rw [runAttempts, hsucc]
      simp
    · have hcur : (double attempt).isSuccess = false :=
        hfail attempt le_rfl hlt
      have hrest : runAttempts double maxRetries n (attempt + 1) =
          ⟨pyStrip out, k - (attempt + 1) + 1, k - (attempt + 1)⟩ := by
        apply ih (attempt + 1) k (by omega) (by omega) (by omega)
          (fun i hi hi' => hfail i (by omega) hi') hsucc
      have hsleep : attempt < maxRetries - 1 := by omega
      rw [runAttempts]
      cases hd : double attempt with
      | success s => rw [hd] at hcur; simp [ProcOutcome.isSuccess] at hcur
      | exitFailure s => simp only [hrest]; simp [hsleep]; omega
      | timeout => simp only [hrest]; simp [hsleep]; omega
      | spawnError m => simp only [hrest]; simp [hsleep]; omega

/-- A concrete process double for the retry claim: attempts 0 and 1 time
out, attempt 2 exits successfully with stdout `" hello "`. -/
def retryDouble : Nat → ProcOutcome :=
  fun i => if i < 2 then ProcOutcome.timeout else ProcOutcome.success " hello ".data

/-- C1: given a generation-process double that fails `n` times and then
succeeds with stdout `out`, `call_llama_with_ollama` with
`max_retries = n + 1` returns the trimmed success output after `n + 1`
attempts with a backoff between each pair of consecutive attempts
(`n` sleeps); with `max_retries = n` it returns the sentinel failure
string after exactly `n` attempts and `n - 1` backoff sleeps (one
between each pair of consecutive attempts, none after the last). -/
theorem call_llama_retry_boundary (double : Nat → ProcOutcome) (n : Nat)
    (out : List Char)
    (hfail : ∀ i, i < n → (double i).isSuccess = false)
    (hsucc : double n = ProcOutcome.success out) :
    callLlamaWithOllama double (n + 1) = ⟨pyStrip out, n + 1, n⟩ ∧
    callLlamaWithOllama double n = ⟨sentinelFail, n, n - 1⟩ := by
  constructor
  · have h := runAttempts_first_success double (n + 1) out (n + 1) 0 n
      (by omega) (by omega) (by omega)
      (fun i _ hi => hfail i hi) hsucc
    simpa [callLlamaWithOllama] using h
  · have h := runAttempts_all_fail double n n 0 (by omega)
      (fun i _ hi => hfail i hi)
    simpa [callLlamaWithOllama] using h

/-- Witness for C1 at `n = 2`: the double fails twice then succeeds with
`" hello "`; with `max_retries = 3` the Invoker returns the trimmed
output `"hello"` after 3 attempts and 2 sleeps, with `max_retries = 2`
it returns the sentinel after 2 attempts and 1 sleep. -/
theorem call_llama_retry_boundary_witness :
    callLlamaWithOllama retryDouble 3 = ⟨"hello".data, 3, 2⟩ ∧
    callLlamaWithOllama retryDouble 2 = ⟨sentinelFail, 2, 1⟩ := by
  have h := call_llama_retry_boundary retryDouble 2 " hello ".data
    (by decide) (by decide)
  refine ⟨?_, h.2⟩
  rw [h.1]
  decide

/-- One step of the chunking list comprehension
`[note_text[i:i+max_chunk_size] for i in range(0, len(note_text), max_chunk_size)]`
(`app.py` line 172), driven by a fuel that bounds the number of remaining
characters: each step takes the next `bound` characters
(`c :: rest.take (bound - 1)` equals `l.take bound` on `l = c :: rest`
for `bound ≥ 1`; the source uses `bound = 3000`) and recurses on the rest.
The fuel case `(0, _ :: _)` is unreachable when the fuel is at least the
length of the list, since each step consumes at least one character. -/
def chunksOfAux (bound : Nat) : Nat → List Char → List (List Char)
  | _, [] => []
  | 0, l => [l]
  | fuel + 1, c :: rest =>
    (c :: rest.take (bound - 1)) :: chunksOfAux bound fuel (rest.drop (bound - 1))

/-- The chunking step of `generate_explanations` (`app.py` lines 171-172):
split the text into consecutive slices of `bound` characters, the last
slice possibly shorter; an empty text yields no chunks
(`range(0, 0, bound)` is empty). -/
def chunksOf (bound : Nat) (l : List Char) : List (List Char) :=
  chunksOfAux bound l.length l

theorem chunksOfAux_nil (bound fuel : Nat) : chunksOfAux bound fuel [] = [] := by
  cases fuel <;> rfl

theorem chunksOfAux_flatten (bound : Nat) :
    ∀ fuel l, l.length ≤ fuel → (chunksOfAux bound fuel l).flatten = l := by
  intro fuel
  induction fuel with
  | zero =>
    intro l hl
    have : l = [] := List.eq_nil_of_length_eq_zero (by omega)
    subst this; rfl
  | succ n ih =>
    intro l hl
    cases l with
    | nil => rfl
    | cons c rest =>
      have hr : (rest.drop (bound - 1)).length ≤ n := by
        simp only [List.length_drop]
        simp only [List.length_cons] at hl
        omega
      simp only [chunksOfAux, List.flatten_cons, ih _ hr]
      simp [List.take_append_drop]

theorem chunksOfAux_length (bound : Nat) (hb : 0 < bound) :
    ∀ fuel l, l.length ≤ fuel →
    (chunksOfAux bound fuel l).length = (l.length + bound - 1) / bound := by
  intro fuel
  have hz : (bound - 1) / bound = 0 := Nat.div_eq_of_lt (by omega)
  induction fuel with
  | zero =>
    intro l hl
    have : l = [] := List.eq_nil_of_length_eq_zero (by omega)
    subst this
    simpa [chunksOfAux] using hz.symm
  | succ n ih =>
    intro l hl
    cases l with
    | nil => simpa [chunksOfAux] using hz.symm
    | cons c rest =>
      have hr : (rest.drop (bound - 1)).length ≤ n := by
        simp only [List.length_drop]
        simp only [List.length_cons] at hl
        omega
      simp only [chunksOfAux, List.length_cons, ih _ hr, List.length_drop]
      rcases Nat.lt_or_ge rest.length (bound - 1) with hlt | hge
      · have h1 : rest.length - (bound - 1) = 0 := by omega
        have h2 : (rest.length + 1 + bound - 1) / bound = 1 :=
          Nat.div_eq_of_lt_le (by omega) (by omega)
        rw [h1, h2]
        simpa using hz
      · have h1 : rest.length - (bound - 1) + bound - 1 + bound
            = rest.length + 1 + bound - 1 := by omega
        rw [← h1, Nat.add_div_right _ hb]

theorem chunksOfAux_dropLast_length (bound : Nat) (hb : 0 < bound) :
    ∀ fuel l, l.length ≤ fuel →
    ∀ c ∈ (chunksOfAux bound fuel l).dropLast, c.length = bound := by
  intro fuel
  induction fuel with
  | zero =>
    intro l hl
    have : l = [] := List.eq_nil_of_length_eq_zero (by omega)
    subst this
    intro c hc
    simp [chunksOfAux] at hc
  | succ n ih =>
    intro l hl
    cases l with
    | nil => intro c hc; simp [chunksOfAux] at hc
    | cons x rest =>
      intro c hc
      simp only [chunksOfAux] at hc
      cases htail : chunksOfAux bound n (rest.drop (bound - 1)) with
      | nil => rw [htail] at hc; simp at hc
      | cons y ys =>
        rw [htail] at hc
        rw [List.dropLast_cons_of_ne_nil (by simp)] at hc
        rcases List.mem_cons.mp hc with hc1 | hc2
        · subst hc1
          have hne : rest.drop (bound - 1) ≠ [] := by
            intro hnil
            rw [hnil, chunksOfAux_nil] at htail
            exact List.noConfusion htail
          have hlen : bound - 1 < rest.length := by
            by_contra hcon
            refine hne (List.drop_eq_nil_of_le ?_)
            omega
          simp only [List.length_cons, List.length_take]
          omega
        · have hr : (rest.drop (bound - 1)).length ≤ n := by
            simp only [List.length_drop]
            simp only [List.length_cons] at hl
            omega
          exact ih _ hr c (by rw [htail]; exact hc2)

/-- C2: the chunking step splits the text into contiguous, non-overlapping
chunks whose in-order concatenation reproduces the text exactly; every
chunk except possibly the last has length exactly the configured bound of
3000 characters; and the number of chunks is `ceil(len / 3000)`, i.e.
`(len + 2999) / 3000` in natural division. -/
theorem chunking_partition (t : List Char) :
    (chunksOf 3000 t).flatten = t ∧
    (∀ c ∈ (chunksOf 3000 t).dropLast, c.length = 3000) ∧
    (chunksOf 3000 t).length = (t.length + 3000 - 1) / 3000 :=
  ⟨chunksOfAux_flatten 3000 t.length t le_rfl,
   chunksOfAux_dropLast_length 3000 (by omega) t.length t le_rfl,
   chunksOfAux_length 3000 (by omega) t.length t le_rfl⟩

/-- Whether `pat` is an initial segment of `l` (character-wise equality);
the matching test used by `str.count`. -/
def leadsWith : List Char → List Char → Bool
  | [], _ => true
  | _ :: _, [] => false
  | a :: as, b :: bs => a == b && leadsWith as bs

/-- Python `haystack.count(needle)` for a non-empty `needle`: the number
of non-overlapping occurrences, scanning left to right (on a match the
scan resumes after the matched segment; `needle.drop (k - 1)` applied to
the tail equals dropping the whole match from the current position when
`needle` has length `k ≥ 1`, which holds for every keyword in the
source).  Used by `detect_content_type` (`app.py` line 81). -/
def countOccs (needle : List Char) : List Char → Nat
  | [] => 0
  | c :: rest =>
    if leadsWith needle (c :: rest) then
      1 + countOccs needle (rest.drop (needle.length - 1))
    else
      countOccs needle rest
termination_by l => l.length
decreasing_by
  · simp only [List.length_drop, List.length_cons]; omega
  · simp only [List.length_cons]; omega

/-- The keyword table of `detect_content_type` (`app.py` lines 72-78), in
declaration order of the Python dict literal (insertion order, which
`dict.items()` and `max` iterate). -/
def markers : List (List Char × List (List Char)) :=
  [("technical".data,
    ["algorithm".data, "implementation".data, "system".data, "process".data,
     "technical".data, "architecture".data]),
   ("scientific".data,
    ["experiment".data, "research".data, "study".data, "analysis".data,
     "data".data, "methodology".data]),
   ("theoretical".data,
    ["theory".data, "concept".data, "principle".data, "framework".data,
     "model".data, "approach".data]),
   ("educational".data,
    ["learn".data, "understand".data, "explain".data, "example".data,
     "practice".data, "exercise".data]),
   ("business".data,
    ["strategy".data, "market".data, "business".data, "management".data,
     "organization".data, "planning".data])]

/-- The score dict of `detect_content_type` (`app.py` lines 80-82): lower
the text, then for each category sum `text.count(marker)` over its
markers; kept as an ordered association list, matching dict insertion
order. -/
def contentScores (text : List Char) : List (List Char × Nat) :=
  let t := text.map Char.toLower
  markers.map (fun m => (m.1, (m.2.map (fun kw => countOccs kw t)).sum))

/-- `max(scores.items(), key=lambda x: x[1])`: Python `max` keeps the
current best and replaces it only on a strictly greater key, so it
returns the first item attaining the maximum. -/
def maxBySecond (s : List Char × Nat) (l : List (List Char × Nat)) :
    List Char × Nat :=
  l.foldl (fun best y => if best.2 < y.2 then y else best) s

/-- `ContentExplainer.detect_content_type` (`app.py` lines 70-84): the
first-declared category with the maximum keyword score.  The `[]` branch
is unreachable (`markers` has five entries). -/
def detectContentType (text : List Char) : List Char :=
  match contentScores text with
  | [] => []
  | s :: rest => (maxBySecond s rest).1

/-- Python `max` over a non-empty list returns the first element whose
key attains the maximum: the result splits the list with all earlier
elements strictly below it and every element at most it. -/
theorem maxBySecond_first_max (l : List (List Char × Nat)) :
    ∀ s : List Char × Nat, ∃ l₁ l₂,
      s :: l = l₁ ++ maxBySecond s l :: l₂ ∧
      (∀ p ∈ l₁, p.2 < (maxBySecond s l).2) ∧
      (∀ p ∈ s :: l, p.2 ≤ (maxBySecond s l).2) := by
  induction l with
  | nil =>
    intro s
    exact ⟨[], [], rfl, by simp, by simp [maxBySecond]⟩
  | cons y t ih =>
    intro s
    have hstep : maxBySecond s (y :: t)
        = maxBySecond (if s.2 < y.2 then y else s) t := rfl
    rcases ih (if s.2 < y.2 then y else s) with ⟨l₁, l₂, hsplit, hlt, hle⟩
    rw [← hstep] at hsplit hlt hle
    by_cases hxy : s.2 < y.2
    · simp only [if_pos hxy] at hsplit hlt hle
      have hymem : y.2 ≤ (maxBySecond s (y :: t)).2 :=
        hle y (List.mem_cons_self y t)
      refine ⟨s :: l₁, l₂, ?_, ?_, ?_⟩
      · rw [List.cons_append, ← hsplit]
      · intro p hp
        rcases List.mem_cons.mp hp with hp | hp
        · rw [hp]; exact lt_of_lt_of_le hxy hymem
        · exact hlt p hp
      · intro p hp
        rcases List.mem_cons.mp hp with hp | hp
        · rw [hp]; exact le_of_lt (lt_of_lt_of_le hxy hymem)
        · exact hle p hp
    · simp only [if_neg hxy] at hsplit hlt hle
      have hsle : s.2 ≤ (maxBySecond s (y :: t)).2 :=
        hle s (List.mem_cons_self s t)
      have hyle : y.2 ≤ s.2 := le_of_not_lt hxy
      cases l₁ with
      | nil =>
        simp only [List.nil_append] at hsplit
        have hs : maxBySecond s (y :: t) = s :=
          ((List.cons_eq_cons.mp hsplit).1).symm
        refine ⟨[], y :: t, by rw [hs]; rfl, by simp, ?_⟩
        intro p hp
        rcases List.mem_cons.mp hp with hp | hp
        · rw [hp, hs]
        rcases List.mem_cons.mp hp with hp | hp
        · rw [hp, hs]; exact hyle
        · exact hle p (List.mem_cons_of_mem _ hp)
      | cons a l₁' =>
        have hsa : s = a := (List.cons_eq_cons.mp hsplit).1
        have htails : t = l₁' ++ maxBySecond s (y :: t) :: l₂ :=
          (List.cons_eq_cons.mp hsplit).2
        have hslt : s.2 < (maxBySecond s (y :: t)).2 := by
          have := hlt a (List.mem_cons_self a l₁')
          rw [← hsa] at this
          exact this
        refine ⟨s :: y :: l₁', l₂, ?_, ?_, ?_⟩
        · rw [List.cons_append, List.cons_append, ← htails]
        · intro p hp
          rcases List.mem_cons.mp hp with hp | hp
          · rw [hp]; exact hslt
          rcases List.mem_cons.mp hp with hp | hp
          · rw [hp]; exact lt_of_le_of_lt hyle hslt
          · exact hlt p (List.mem_cons_of_mem _ hp)
        · intro p hp
          rcases List.mem_cons.mp hp with hp | hp
          · rw [hp]; exact hsle
          rcases List.mem_cons.mp hp with hp | hp
          · rw [hp]; exact le_trans hyle hsle
          · exact hle p (List.mem_cons_of_mem _ hp)

/-- C4: `detect_content_type` scores each of the five categories (in the
fixed declaration order technical, scientific, theoretical, educational,
business) by summed non-overlapping keyword counts over the lower-cased
text, and returns the first-declared category attaining the maximum
score: the score list splits as `before ++ best :: after` with every
category in `before` scoring strictly less than `best` and every
category at most `best`, and the result is always one of the five
category names (in particular classification of a text with zero keyword
matches, such as the empty text, still yields a category). -/
theorem detect_content_type_first_max (text : List Char) :
    ∃ before after best,
      contentScores text = before ++ best :: after ∧
      detectContentType text = best.1 ∧
      (∀ p ∈ before, p.2 < best.2) ∧
      (∀ p ∈ contentScores text, p.2 ≤ best.2) ∧
      detectContentType text ∈
        ["technical".data, "scientific".data, "theoretical".data,
         "educational".data, "business".data] := by
  have hmap : (contentScores text).map Prod.fst
      = ["technical".data, "scientific".data, "theoretical".data,
         "educational".data, "business".data] := by
    simp [contentScores, markers]
  cases hsc : contentScores text with
  | nil => rw [hsc] at hmap; exact absurd hmap (by simp)
  | cons s rest =>
    rcases maxBySecond_first_max rest s with ⟨l₁, l₂, hsplit, hlt, hle⟩
    have hdet : detectContentType text = (maxBySecond s rest).1 := by
      unfold detectContentType
      rw [hsc]
    have hmem : maxBySecond s rest ∈ s :: rest := by
      rw [hsplit]
      exact List.mem_append_right _ (List.mem_cons_self _ _)
    refine ⟨l₁, l₂, maxBySecond s rest, hsplit, hdet, hlt, hle, ?_⟩
    rw [hsc] at hmap
    rw [hdet, ← hmap]
    exact List.mem_map_of_mem Prod.fst hmem

/-- The `educational` row of `base_prompts` (`app.py` lines 104-108),
also the defensive default of `base_prompts.get(content_type,
base_prompts['educational'])`. -/
def educationalRow : List (List Char × List Char) :=
  [("beginner".data,
    "Please explain this educational material in student-friendly terms: ".data),
   ("intermediate".data,
    "Please provide a comprehensive educational explanation of: ".data),
   ("advanced".data,
    "Please provide an in-depth educational analysis of: ".data)]

/-- The `base_prompts` table of `generate_prompts` (`app.py` lines
88-114): five categories, each mapping the three tiers (in dict
insertion order beginner, intermediate, advanced) to a prompt template. -/
def basePrompts : List (List Char × List (List Char × List Char)) :=
  [("technical".data,
    [("beginner".data,
      "Please explain this technical content in simple terms for beginners: ".data),
     ("intermediate".data,
      "Please provide a detailed technical explanation of: ".data),
     ("advanced".data,
      "Please provide an in-depth technical analysis of: ".data)]),
   ("scientific".data,
    [("beginner".data,
      "Please explain this scientific content in accessible terms: ".data),
     ("intermediate".data,
      "Please provide a detailed scientific explanation of: ".data),
     ("advanced".data,
      "Please provide an in-depth scientific analysis of: ".data)]),
   ("theoretical".data,
    [("beginner".data,
      "Please explain these theoretical concepts in simple terms: ".data),
     ("intermediate".data,
      "Please provide a detailed theoretical explanation of: ".data),
     ("advanced".data,
      "Please provide an in-depth theoretical analysis of: ".data)]),
   ("educational".data, educationalRow),
   ("business".data,
    [("beginner".data,
      "Please explain this business content in simple terms: ".data),
     ("intermediate".data,
      "Please provide a detailed business analysis of: ".data),
     ("advanced".data,
      "Please provide an in-depth business analysis of: ".data)])]

/-- `ContentExplainer.generate_prompts` (`app.py` lines 86-116):
`base_prompts.get(content_type, base_prompts['educational'])`. -/
def generatePrompts (contentType : List Char) : List (List Char × List Char) :=
  match basePrompts.find? (fun p => p.1 == contentType) with
  | some p => p.2
  | none => educationalRow

/-- The sentinel explanation used when no chunk of a tier succeeded
(`app.py` line 183). -/
def noExplanationMsg : List Char := "No explanation generated.".data

/-- The chunk-result aggregation of `generate_explanations` (`app.py`
lines 176-183): results equal to the Invoker's sentinel are dropped
(the loop appends a result to `full_explanation` only when it differs
from the sentinel), the survivors are joined with the paragraph
separator, and an empty survivor list yields the fixed sentinel
explanation. -/
def aggregateChunkResults (results : List (List Char)) : List Char :=
  let ok := results.filter (fun r => r != sentinelFail)
  if ok.isEmpty then noExplanationMsg else List.intercalate "\n\n".data ok

/-- The per-chunk results of one tier in `generate_explanations`
(`app.py` lines 177-181): for each chunk in order, build the prompt
`f"{prompt_template}\n\n{chunk}"` and call `call_llama_with_ollama` with
its default `max_retries = 3`.  `behaviour` gives, per prompt, the
outcome of each process attempt. -/
def tierChunkResults (behaviour : List Char → Nat → ProcOutcome)
    (tmpl : List Char) (chunks : List (List Char)) : List (List Char) :=
  chunks.map (fun chunk =>
    (callLlamaWithOllama (behaviour (tmpl ++ "\n\n".data ++ chunk)) 3).output)

/-- `ContentExplainer.generate_explanations` (`app.py` lines 165-185):
detect the content type, build the per-tier prompt templates, chunk the
text at 3000 characters, generate and aggregate per tier, and return the
per-tier explanations (in tier order) together with the content type. -/
def generateExplanations (behaviour : List Char → Nat → ProcOutcome)
    (noteText : List Char) : List (List Char × List Char) × List Char :=
  let contentType := detectContentType noteText
  let prompts := generatePrompts contentType
  let chunks := chunksOf 3000 noteText
  (prompts.map (fun lt =>
     (lt.1, aggregateChunkResults (tierChunkResults behaviour lt.2 chunks))),
   contentType)

theorem generatePrompts_tiers (contentType : List Char) :
    (generatePrompts contentType).map Prod.fst
      = ["beginner".data, "intermediate".data, "advanced".data] := by
  unfold generatePrompts
  cases hf : basePrompts.find? (fun p => p.1 == contentType) with
  | none => rfl
  | some p =>
    have hmem : p ∈ basePrompts := List.mem_of_find?_eq_some hf
    simp only [basePrompts, List.mem_cons, List.not_mem_nil, or_false] at hmem
    rcases hmem with h | h | h | h | h <;> rw [h] <;> rfl

/-- C3: aggregation drops exactly the chunk results equal to the
Invoker's sentinel and joins the survivors with the paragraph separator
in original chunk order: for chunk results `[ok1, FAIL, ok2]` with
`ok1, ok2` different from the sentinel the tier Explanation is
`ok1 ++ "\n\n" ++ ok2`; if every chunk result is the sentinel the
Explanation is the fixed `"No explanation generated."`; and in general a
tier with at least one surviving result gets the separator-join of the
surviving results in order. -/
theorem generate_explanations_aggregation :
    (∀ ok1 ok2 : List Char, ok1 ≠ sentinelFail → ok2 ≠ sentinelFail →
       aggregateChunkResults [ok1, sentinelFail, ok2]
         = ok1 ++ "\n\n".data ++ ok2) ∧
    (∀ rs : List (List Char), (∀ r ∈ rs, r = sentinelFail) →
       aggregateChunkResults rs = noExplanationMsg) ∧
    (∀ rs : List (List Char),
       rs.filter (fun r => r != sentinelFail) ≠ [] →
       aggregateChunkResults rs
         = List.intercalate "\n\n".data
             (rs.filter (fun r => r != sentinelFail))) := by
  refine ⟨?_, ?_, ?_⟩
  · intro ok1 ok2 h1 h2
    simp [aggregateChunkResults, List.filter_cons, h1, h2,
      List.intercalate, List.intersperse]
  · intro rs h
    have hnil : rs.filter (fun r => r != sentinelFail) = [] := by
      rw [List.filter_eq_nil_iff]
      intro a ha
      simp [h a ha]
    simp [aggregateChunkResults, hnil]
  · intro rs h
    have hne : (rs.filter (fun r => r != sentinelFail)).isEmpty = false := by
      simpa [List.isEmpty_iff] using h
    simp [aggregateChunkResults, hne]

/-- Witness for C3: results `["a", FAIL, "b"]` aggregate to
`"a\n\nb"`. -/
theorem generate_explanations_aggregation_witness :
    aggregateChunkResults ["a".data, sentinelFail, "b".data]
      = "a".data ++ "\n\n".data ++ "b".data :=
  generate_explanations_aggregation.1 "a".data "b".data
    (by decide) (by decide)

/-- C8: one run of `generate_explanations` returns exactly one
Explanation per tier, keyed in order beginner, intermediate, advanced,
and exactly one detected Category — for every process behaviour and
every input text; the tier selector plays no role in it. -/
theorem generate_explanations_all_tiers
    (behaviour : List Char → Nat → ProcOutcome) (noteText : List Char) :
    (generateExplanations behaviour noteText).1.map Prod.fst
      = ["beginner".data, "intermediate".data, "advanced".data] ∧
    (generateExplanations behaviour noteText).2
      = detectContentType noteText := by
  constructor
  · have h := generatePrompts_tiers (detectContentType noteText)
    simpa [generateExplanations, List.map_map, Function.comp] using h
  · rfl

/-- C9: the pipeline is deterministic — two runs of
`generate_explanations` on equal input texts, with process doubles of
identical behaviour, return identical per-tier explanations and the same
category. -/
theorem generate_explanations_deterministic
    (b₁ b₂ : List Char → Nat → ProcOutcome) (t₁ t₂ : List Char)
    (hb : ∀ p n, b₁ p n = b₂ p n) (ht : t₁ = t₂) :
    generateExplanations b₁ t₁ = generateExplanations b₂ t₂ := by
  subst ht
  have hfun : b₁ = b₂ := funext fun p => funext fun n => hb p n
  rw [hfun]

/-- A deterministic process double: every attempt of every prompt
succeeds with stdout `"ok"`. -/
def detBehaviour : List Char → Nat → ProcOutcome :=
  fun _ _ => ProcOutcome.success "ok".data

/-- Witness for C9: re-running on the text `"abc"` with the fixed
deterministic double yields identical output. -/
theorem generate_explanations_deterministic_witness :
    generateExplanations detBehaviour "abc".data
      = generateExplanations detBehaviour "abc".data :=
  generate_explanations_deterministic detBehaviour detBehaviour
    "abc".data "abc".data (fun _ _ => rfl) rfl

/-- The output of the retry loop, over any window: either the sentinel,
or the trimmed stdout of some successful attempt inside the window. -/
theorem runAttempts_output_cases (double : Nat → ProcOutcome)
    (maxRetries : Nat) :
    ∀ fuel attempt,
      (runAttempts double maxRetries fuel attempt).output = sentinelFail ∨
      ∃ k out, attempt ≤ k ∧ k < attempt + fuel ∧
        double k = ProcOutcome.success out ∧
        (runAttempts double maxRetries fuel attempt).output = pyStrip out := by
  intro fuel
  induction fuel with
  | zero => intro attempt; left; rfl
  | succ n ih =>
    intro attempt
    cases hd : double attempt with
    | success s =>
      right
      exact ⟨attempt, s, le_rfl, by omega, hd, by rw [runAttempts, hd]⟩
    | exitFailure s =>
      rcases ih (attempt + 1) with h | ⟨k, out, hk1, hk2, hk3, hk4⟩
      · left; rw [runAttempts, hd]; exact h
      · right
        exact ⟨k, out, by omega, by omega, hk3, by rw [runAttempts, hd]; exact hk4⟩
    | timeout =>
      rcases ih (attempt + 1) with h | ⟨k, out, hk1, hk2, hk3, hk4⟩
      · left; rw [runAttempts, hd]; exact h
      · right
        exact ⟨k, out, by omega, by omega, hk3, by rw [runAttempts, hd]; exact hk4⟩
    | spawnError m =>
      rcases ih (attempt + 1) with h | ⟨k, out, hk1, hk2, hk3, hk4⟩
      · left; rw [runAttempts, hd]; exact h
      · right
        exact ⟨k, out, by omega, by omega, hk3, by rw [runAttempts, hd]; exact hk4⟩

/-- C7: generation failure is never fatal.  Whatever the behaviour of
the external process (non-zero exit, timeout, spawn error, in any
combination over the attempts), the Invoker returns a string — the
sentinel or the trimmed stdout of a successful attempt within the retry
budget; consequently every chunk of every tier is processed: each tier
produces one result per chunk, and the pipeline always emits all three
tier explanations. -/
theorem generation_failure_never_fatal (double : Nat → ProcOutcome)
    (maxRetries : Nat) (behaviour : List Char → Nat → ProcOutcome)
    (noteText : List Char) :
    ((callLlamaWithOllama double maxRetries).output = sentinelFail ∨
      ∃ k out, k < maxRetries ∧ double k = ProcOutcome.success out ∧
        (callLlamaWithOllama double maxRetries).output = pyStrip out) ∧
    (∀ tmpl, (tierChunkResults behaviour tmpl (chunksOf 3000 noteText)).length
       = (chunksOf 3000 noteText).length) ∧
    (generateExplanations behaviour noteText).1.length = 3 := by
  refine ⟨?_, ?_, ?_⟩
  · rcases runAttempts_output_cases double maxRetries maxRetries 0 with
      h | ⟨k, out, _, hk2, hk3, hk4⟩
    · left; exact h
    · right; exact ⟨k, out, by omega, hk3, hk4⟩
  · intro tmpl
    exact List.length_map _ _
  · have h := generatePrompts_tiers (detectContentType noteText)
    have hlen : (generatePrompts (detectContentType noteText)).length = 3 := by
      have h2 := congrArg List.length h
      simpa using h2
    simpa [generateExplanations] using hlen

/-- A process double whose first attempt succeeds — with stdout equal,
character for character, to the Invoker's sentinel failure string. -/
def sentinelEchoBehaviour : Nat → ProcOutcome :=
  fun _ => ProcOutcome.success sentinelFail

/-- Counterexample to C6 as stated: the sentinel is *not* distinct from
every possible generated content.  With a double whose very first
attempt succeeds and outputs exactly the sentinel text, the Invoker
succeeds in one attempt, yet its returned result equals the sentinel, so
the string-equality exclusion drops this successfully generated chunk:
a tier whose single chunk is this one aggregates to
`"No explanation generated."`. -/
theorem sentinel_exclusion_counterexample :
    (sentinelEchoBehaviour 0).isSuccess = true ∧
    callLlamaWithOllama sentinelEchoBehaviour 3
      = ⟨sentinelFail, 1, 0⟩ ∧
    aggregateChunkResults
      [(callLlamaWithOllama sentinelEchoBehaviour 3).output]
      = noExplanationMsg := by
  refine ⟨rfl, ?_, ?_⟩ <;> decide

/-- C6 (amended): exclusion is string-equality with the sentinel.  Every
chunk whose generation fails all attempts returns the sentinel (hence is
excluded), a chunk with a successful attempt within the budget returns
its trimmed stdout (hence is kept exactly when that stdout does not trim
to the sentinel text), and the aggregation filter retains precisely the
results different from the sentinel. -/
theorem sentinel_exclusion_amended (double : Nat → ProcOutcome)
    (maxRetries : Nat) :
    ((∀ i, i < maxRetries → (double i).isSuccess = false) →
       (callLlamaWithOllama double maxRetries).output = sentinelFail) ∧
    (∀ k out, k < maxRetries →
       (∀ j, j < k → (double j).isSuccess = false) →
       double k = ProcOutcome.success out →
       (callLlamaWithOllama double maxRetries).output = pyStrip out) ∧
    (∀ rs : List (List Char), ∀ r : List Char,
       (r ∈ rs.filter (fun x => x != sentinelFail) ↔
         r ∈ rs ∧ r ≠ sentinelFail)) := by
  refine ⟨?_, ?_, ?_⟩
  · intro hfail
    have h := runAttempts_all_fail double maxRetries maxRetries 0 (by omega)
      (fun i _ hi => hfail i hi)
    rw [callLlamaWithOllama, h]
  · intro k out hk hfail hsucc
    have h := runAttempts_first_success double maxRetries out maxRetries 0 k
      (by omega) (by omega) (by omega) (fun i _ hi => hfail i hi) hsucc
    rw [callLlamaWithOllama, h]
  · intro rs r
    simp [List.mem_filter]

/-- A process double whose every attempt exits with a non-zero status. -/
def alwaysFailBehaviour : Nat → ProcOutcome :=
  fun _ => ProcOutcome.exitFailure "model not found".data

/-- Witness for the amended C6: an always-failing chunk returns the
sentinel (and so is excluded), and a non-sentinel result `"x"` survives
the aggregation filter. -/
theorem sentinel_exclusion_amended_witness :
    (callLlamaWithOllama alwaysFailBehaviour 2).output = sentinelFail ∧
    ("x".data ∈ ["x".data, sentinelFail].filter (fun x => x != sentinelFail) ↔
      "x".data ∈ ["x".data, sentinelFail] ∧ "x".data ≠ sentinelFail) :=
  ⟨(sentinel_exclusion_amended alwaysFailBehaviour 2).1 (fun _ _ => rfl),
   (sentinel_exclusion_amended alwaysFailBehaviour 2).2.2
     ["x".data, sentinelFail] "x".data⟩

/-- A block of the rendered PDF story, tagged with the paragraph style
used by `create_level_pdf`: the document title (`Title` style), the
level subtitle (`Heading1`), a topic heading (`Topic`), a normal
paragraph (`CustomNormal`), or a `Spacer`. -/
inductive Block where
  | docTitle (text : List Char)
  | subtitle (text : List Char)
  | topic (text : List Char)
  | normal (text : List Char)
  | spacer
deriving DecidableEq

/-- The body of the section loop of `create_level_pdf` (`app.py` lines
216-225) for one block of `content.split('\n\n')`: a block that strips
to the empty string is skipped; otherwise the stripped block becomes a
`Topic` heading when its length is under 100 characters and it contains
at least one uppercase character, else a normal paragraph (embedded
newlines replaced by spaces, `section.replace('\n', ' ')` with the
single-character pattern mapped characterwise) followed by a spacer. -/
def renderSection (s : List Char) : List Block :=
  if pyStrip s = [] then []
  else
    let t := pyStrip s
    if t.length < 100 ∧ t.any Char.isUpper then [Block.topic t]
    else
      [Block.normal (t.map (fun c => if c = '\n' then ' ' else c)),
       Block.spacer]

/-- Python `str.split(sep)` for a non-empty separator: split on the
non-overlapping occurrences of `sep`, scanning left to right, keeping
empty segments (on a match, `rest.drop (sep.length - 1)` is the
remainder after the whole match, since the matched head character is
already consumed).  Used for the paragraph split on `"\n\n"`
(`app.py` line 214). -/
def pySplit (sep : List Char) : List Char → List (List Char)
  | [] => [[]]
  | c :: rest =>
    if leadsWith sep (c :: rest) then
      [] :: pySplit sep (rest.drop (sep.length - 1))
    else
      match pySplit sep rest with
      | [] => [[c]]
      | seg :: segs => (c :: seg) :: segs
termination_by l => l.length
decreasing_by
  · simp only [List.length_drop, List.length_cons]; omega
  · simp only [List.length_cons]; omega

/-- Python `str.title()` for ASCII text: uppercase every letter that
follows a non-letter, lowercase every letter that follows a letter
(`content_type.title()` in `app.py` line 209; every category name is a
single lowercase word, so this capitalizes its first letter). -/
def pyTitleAux : List Char → Bool → List Char
  | [], _ => []
  | c :: rest, prevCased =>
    (if prevCased then c.toLower else c.toUpper) :: pyTitleAux rest c.isAlpha

def pyTitle (l : List Char) : List Char := pyTitleAux l false

/-- The `level_titles` dict of `create_level_pdf` (`app.py` lines
204-208). -/
def levelTitles : List (List Char × List Char) :=
  [("beginner".data, "Beginner-Friendly Guide".data),
   ("intermediate".data, "Comprehensive Guide".data),
   ("advanced".data, "Advanced Analysis".data)]

/-- The story built by `ContentExplainer.create_level_pdf`
(`app.py` lines 187-227), as the ordered block sequence handed to the
document writer: title, level subtitle, a spacer, then the classified
sections of the content.  `level_titles[level]` raises `KeyError` for an
unknown level, modelled as `none`. -/
def createLevelStory (content title level contentType : List Char) :
    Option (List Block) :=
  (levelTitles.find? (fun p => p.1 == level)).map (fun p =>
    [Block.docTitle title,
     Block.subtitle (p.2 ++ " - ".data ++ pyTitle contentType ++ " Content".data),
     Block.spacer]
    ++ ((pySplit "\n\n".data content).map renderSection).flatten)

set_option maxRecDepth 4000 in
/-- C5: a non-empty trimmed block is classified as a `Topic` heading
exactly when its length is strictly below 100 characters and it contains
at least one uppercase character, and otherwise becomes a normal
paragraph with embedded newlines replaced by spaces; in particular the
block `"ALGORITHMS"` renders as a heading, and a 150-character
all-lowercase block renders as a normal paragraph. -/
theorem create_level_pdf_section_classification :
    (∀ s : List Char, pyStrip s ≠ [] →
      (renderSection s = [Block.topic (pyStrip s)] ↔
        ((pyStrip s).length < 100 ∧ (pyStrip s).any Char.isUpper = true)) ∧
      (¬ ((pyStrip s).length < 100 ∧ (pyStrip s).any Char.isUpper = true) →
        renderSection s
          = [Block.normal
               ((pyStrip s).map (fun c => if c = '\n' then ' ' else c)),
             Block.spacer])) ∧
    renderSection "ALGORITHMS".data = [Block.topic "ALGORITHMS".data] ∧
    renderSection (List.replicate 150 'a')
      = [Block.normal (List.replicate 150 'a'), Block.spacer] := by
  refine ⟨?_, by decide, by decide⟩
  intro s hne
  constructor
  · constructor
    · intro hr
      by_contra hcond
      rw [renderSection, if_neg hne, if_neg ?_] at hr
      · exact List.noConfusion (List.cons_eq_cons.mp hr).2
      · simpa using hcond
    · intro hcond
      rw [renderSection, if_neg hne, if_pos (by simpa using hcond)]
  · intro hcond
    rw [renderSection, if_neg hne, if_neg (by simpa using hcond)]

/-- Witness for C5: the short mixed-case block `" OK "` strips to a
non-empty string and is classified as a `Topic` heading. -/
theorem create_level_pdf_section_classification_witness :
    renderSection " OK ".data = [Block.topic (pyStrip " OK ".data)] :=
  ((create_level_pdf_section_classification.1 " OK ".data (by decide)).1).mpr
    (by decide)

/-- One multiple-choice question of the quiz: question text, the four
options, and the correct answer (`quiz_app.py` lines 6-32). -/
structure Mcq where
  question : List Char
  options : List (List Char)
  answer : List Char

/-- The fixed `self.mcqs` list of `QuizApp.__init__`
(`quiz_app.py` lines 6-32): four questions. -/
def mcqs : List Mcq :=
  [{ question := "What is the primary goal of a scheduling system in an operating system?".data,
     options := ["To minimize CPU utilization".data,
                 "To make full use of CPU cycles during I/O wait times".data,
                 "To increase I/O wait times".data,
                 "To reduce the time needed for context switching".data],
     answer := "To make full use of CPU cycles during I/O wait times".data },
   { question := "What does a typical CPU-I/O burst cycle involve?".data,
     options := ["Alternating between CPU execution and memory storage".data,
                 "Alternating between CPU calculations and I/O wait times".data,
                 "Continuous CPU calculations only".data,
                 "Continuous I/O wait times only".data],
     answer := "Alternating between CPU calculations and I/O wait times".data },
   { question := "Where are all processes stored upon entering the system?".data,
     options := ["Ready Queue".data, "Job Queue".data, "Waiting Queue".data,
                 "Device Queue".data],
     answer := "Job Queue".data },
   { question := "What is the main function of the long-term scheduler?".data,
     options := ["To manage the job queue by loading processes into memory for execution".data,
                 "To handle device requests in the waiting queue".data,
                 "To control I/O processes only".data,
                 "To schedule jobs directly to the CPU".data],
     answer := "To manage the job queue by loading processes into memory for execution".data }]

/-- `QuizApp.get_level` (`quiz_app.py` lines 62-76):
`percentage = (score / total_questions) * 100` (exact division — Python
float arithmetic is exact for all the achievable values
`score ∈ {0..4}, total_questions = 4`), then `beginner` below 40,
`intermediate` in `[40, 70)` (`elif 40 <= percentage < 70`), otherwise
`advanced`. -/
def getLevel (score totalQuestions : Nat) : List Char :=
  let percentage : ℚ := ((score : ℚ) / (totalQuestions : ℚ)) * 100
  if percentage < 40 then "beginner".data
  else if 40 ≤ percentage ∧ percentage < 70 then "intermediate".data
  else "advanced".data

/-- C10: for every achievable quiz score (0 up to the number of
questions, 4), `get_level` returns exactly one of the three tier names:
`beginner` exactly when the percentage score is strictly below 40,
`intermediate` exactly when it is at least 40 and strictly below 70, and
`advanced` exactly when it is 70 or more. -/
theorem get_level_total_exclusive (score : Nat) (hs : score ≤ mcqs.length) :
    (getLevel score mcqs.length = "beginner".data ↔
      ((score : ℚ) / (mcqs.length : ℚ)) * 100 < 40) ∧
    (getLevel score mcqs.length = "intermediate".data ↔
      (40 ≤ ((score : ℚ) / (mcqs.length : ℚ)) * 100 ∧
       ((score : ℚ) / (mcqs.length : ℚ)) * 100 < 70)) ∧
    (getLevel score mcqs.length = "advanced".data ↔
      70 ≤ ((score : ℚ) / (mcqs.length : ℚ)) * 100) ∧
    getLevel score mcqs.length ∈
      ["beginner".data, "intermediate".data, "advanced".data] := by
  have hlen : mcqs.length = 4 := rfl
  rw [hlen] at hs ⊢
  interval_cases score <;>
    refine ⟨?_, ?_, ?_, ?_⟩ <;>
    simp only [getLevel] <;> norm_num <;> decide

/-- Witness for C10 at score 2 of 4 (50%): `get_level` returns
`intermediate`, and 50 lies in `[40, 70)`. -/
theorem get_level_total_exclusive_witness :
    getLevel 2 mcqs.length = "intermediate".data ∧
    (40 ≤ ((2 : ℚ) / (mcqs.length : ℚ)) * 100 ∧
     ((2 : ℚ) / (mcqs.length : ℚ)) * 100 < 70) := by
  have h := (get_level_total_exclusive 2 (by decide)).2.1
  have hin : (40 ≤ ((2 : ℚ) / ((mcqs.length : Nat) : ℚ)) * 100 ∧
      ((2 : ℚ) / ((mcqs.length : Nat) : ℚ)) * 100 < 70) := by
    norm_num [mcqs]
  exact ⟨h.mpr hin, hin⟩

end StudyPal
